import Mathlib

/-!
Verification of `tools/scrape_api_docs.py`.

The script drives a headless browser over a fixed list of eight
documentation URLs: for each URL it navigates, waits for a content
selector, runs an in-page extraction script, and writes one JSON file;
any failure in those steps is caught per URL, logged, and skipped.
A trailing Notion page is then scraped without such a guard, the browser
is closed, and a summary is printed.

The embedding below models the browser and the disk as an environment
(per-URL outcomes, a notion-page outcome) and translates the script's
control flow over it.  The file system is an association list from path
to file content.  Because Python's `open(path, "w")` creates/truncates
the file before any data is written, a write that raises part-way is
modelled by `WriteOutcome.midFail n msg`: the file exists and holds the
first `n` characters of the intended payload.
-/

namespace ScrapeDocs

/-! ## The rendered DOM

A first-child/next-sibling encoding of a forest of DOM nodes, so that
all traversals are plain structural recursion. -/

/-- A DOM forest: `nil` ends a sibling chain; `text` is a text node;
`elem` is an element with a tag, a class list, a forest of children and
the next sibling. -/
inductive Dom where
  | nil : Dom
  | text (s : String) (sib : Dom) : Dom
  | elem (tag : String) (cls : List String) (child : Dom) (sib : Dom) : Dom
  deriving DecidableEq

/-- A rendered document: its title and the forest of children of
`document.body`. -/
structure Document where
  title : String
  body : Dom
  deriving DecidableEq

/-- The object returned by the in-page extraction script:
`(text, html, title)` as in the page.evaluate return value. -/
structure PageContent where
  text : String
  html : String
  title : String
  deriving DecidableEq

/-- Is this tag a `script` or `style` tag (the elements the extraction
script removes)? -/
def isSSTag (tag : String) : Bool :=
  tag == "script" || tag == "style"

/-- Model of `main.querySelectorAll('script, style')` followed by
`s.remove()` on each hit: every `script`/`style` element (with its whole
subtree) is removed from the forest, at every depth. -/
def stripSS : Dom → Dom
  | .nil => .nil
  | .text s sib => .text s (stripSS sib)
  | .elem tag cls child sib =>
      if isSSTag tag then stripSS sib
      else .elem tag cls (stripSS child) (stripSS sib)

/-- Concatenated text content of a forest: the model of `innerText`
(visible rendered text) used after scripts and styles are stripped. -/
def textF : Dom → String
  | .nil => ""
  | .text s sib => s ++ textF sib
  | .elem _ _ child sib => textF child ++ textF sib

/-- Serialization of a class list as the `class` attribute text. -/
def clsAttr : List String → String
  | [] => ""
  | [c] => c
  | c :: rest => c ++ " " ++ clsAttr rest

/-- Markup serialization of a forest: the model of `innerHTML` of an
element whose children form the given forest. -/
def htmlF : Dom → String
  | .nil => ""
  | .text s sib => s ++ htmlF sib
  | .elem tag cls child sib =>
      "<" ++ tag ++ (if cls.isEmpty then "" else " class=\"" ++ clsAttr cls ++ "\"")
        ++ ">" ++ htmlF child ++ "</" ++ tag ++ ">" ++ htmlF sib

/-- Pre-order first match of a predicate on (tag, classes): the model of
`document.querySelector` over the body's forest.  Returns the matched
element's children. -/
def findFirst (p : String → List String → Bool) : Dom → Option Dom
  | .nil => none
  | .text _ sib => findFirst p sib
  | .elem tag cls child sib =>
      if p tag cls then some child
      else
        match findFirst p child with
        | some r => some r
        | none => findFirst p sib

/-- Predicate for `querySelector('main')`. -/
def mainP (tag : String) (_ : List String) : Bool := tag == "main"

/-- Predicate for `querySelector('article')`. -/
def articleP (tag : String) (_ : List String) : Bool := tag == "article"

/-- Predicate for `querySelector('.documentation')`. -/
def docClassP (_ : String) (cls : List String) : Bool := cls.contains "documentation"

/-- Predicate for `querySelector('.notion-page-content')`. -/
def notionClassP (_ : String) (cls : List String) : Bool := cls.contains "notion-page-content"

/-- The children of the container chosen by the in-page script:
`document.querySelector('main') || ... || document.body`, evaluated in
priority order with the whole body as the default. -/
def selectedChildren (body : Dom) : Dom :=
  match findFirst mainP body with
  | some ch => ch
  | none =>
    match findFirst articleP body with
    | some ch => ch
    | none =>
      match findFirst docClassP body with
      | some ch => ch
      | none =>
        match findFirst notionClassP body with
        | some ch => ch
        | none => body

/-- The value returned by the `page.evaluate` extraction script:
text, html and title read from the selected container after its
`script`/`style` descendants have been removed. -/
def extractContent (d : Document) : PageContent :=
  let ch := stripSS (selectedChildren d.body)
  ⟨textF ch, htmlF ch, d.title⟩

/-- Replace the children of the first element matching `p` (pre-order)
by their `stripSS` image; the returned Bool reports whether a match was
found.  This is the in-place effect of `s.remove()` on the live DOM. -/
def stripAtFirst (p : String → List String → Bool) : Dom → Dom × Bool
  | .nil => (.nil, false)
  | .text s sib =>
      let r := stripAtFirst p sib
      (.text s r.1, r.2)
  | .elem tag cls child sib =>
      if p tag cls then (.elem tag cls (stripSS child) sib, true)
      else
        let rc := stripAtFirst p child
        if rc.2 then (.elem tag cls rc.1 sib, true)
        else
          let rs := stripAtFirst p sib
          (.elem tag cls child rs.1, rs.2)

/-- The body forest of the live page after the extraction script ran:
the selected container (per the same priority order) has had its
`script`/`style` descendants removed in place. -/
def mutatedBody (body : Dom) : Dom :=
  match findFirst mainP body with
  | some _ => (stripAtFirst mainP body).1
  | none =>
    match findFirst articleP body with
    | some _ => (stripAtFirst articleP body).1
    | none =>
      match findFirst docClassP body with
      | some _ => (stripAtFirst docClassP body).1
      | none =>
        match findFirst notionClassP body with
        | some _ => (stripAtFirst notionClassP body).1
        | none => stripSS body

/-- Does the forest contain a `script` or `style` element anywhere? -/
def containsSS : Dom → Bool
  | .nil => false
  | .text _ sib => containsSS sib
  | .elem tag _ child sib => isSSTag tag || containsSS child || containsSS sib

/-! ## Strings: URL segment, truncation, JSON serialization -/

/-- Auxiliary scan for `lastSegment`. -/
def lastSegAux : List Char → List Char → List Char
  | [], acc => acc.reverse
  | c :: rest, acc => if c = '/' then lastSegAux rest [] else lastSegAux rest (c :: acc)

/-- Model of Python's `url.split("/")[-1]`: the suffix after the last
slash. -/
def lastSegment (s : String) : String :=
  String.mk (lastSegAux s.data [])

/-- The first `n` characters of a string (used for the contents of a
file whose write raised after `n` characters). -/
def strTake (n : Nat) (s : String) : String :=
  String.mk (s.data.take n)

/-- Lower-case hex digit for a value below 16. -/
def hexDig (n : Nat) : Char :=
  if n = 0 then '0' else if n = 1 then '1' else if n = 2 then '2'
  else if n = 3 then '3' else if n = 4 then '4' else if n = 5 then '5'
  else if n = 6 then '6' else if n = 7 then '7' else if n = 8 then '8'
  else if n = 9 then '9' else if n = 10 then 'a' else if n = 11 then 'b'
  else if n = 12 then 'c' else if n = 13 then 'd' else if n = 14 then 'e'
  else 'f'

/-- Escape of one character in a JSON string as produced by Python's
`json.dump` with `ensure_ascii=False`: backslash, quote and the short
control escapes get two-character escapes, other control characters get
a four-hex-digit escape, and every other character (all of Unicode) is
kept literally. -/
def escC (c : Char) : List Char :=
  if c = '\\' then ['\\', '\\']
  else if c = '"' then ['\\', '"']
  else if c = '\n' then ['\\', 'n']
  else if c = '\t' then ['\\', 't']
  else if c = '\r' then ['\\', 'r']
  else if c.toNat = 8 then ['\\', 'b']
  else if c.toNat = 12 then ['\\', 'f']
  else if c.toNat < 32 then
    '\\' :: 'u' :: '0' :: '0' :: hexDig (c.toNat / 16) :: hexDig (c.toNat % 16) :: []
  else [c]

/-- Escape of a character list. -/
def escL : List Char → List Char
  | [] => []
  | c :: rest => escC c ++ escL rest

/-- Escaped form of a whole string. -/
def pyEscape (s : String) : String :=
  String.mk (escL s.data)

/-- A JSON string literal for `s`, as Python's `json.dump` emits it with
`ensure_ascii=False`. -/
def pyQuote (s : String) : String :=
  "\"" ++ pyEscape s ++ "\""

/-- Value of a lower-case hex digit character. -/
def hexVal (c : Char) : Nat :=
  if c = '0' then 0 else if c = '1' then 1 else if c = '2' then 2
  else if c = '3' then 3 else if c = '4' then 4 else if c = '5' then 5
  else if c = '6' then 6 else if c = '7' then 7 else if c = '8' then 8
  else if c = '9' then 9 else if c = 'a' then 10 else if c = 'b' then 11
  else if c = 'c' then 12 else if c = 'd' then 13 else if c = 'e' then 14
  else 15

/-- Inverse of `escL`: decodes the JSON string escapes `escL` emits. -/
def unescL : List Char → List Char
  | [] => []
  | c :: rest =>
      if c = '\\' then
        match rest with
        | [] => ['\\']
        | e :: rest2 =>
            if e = 'n' then '\n' :: unescL rest2
            else if e = 't' then '\t' :: unescL rest2
            else if e = 'r' then '\r' :: unescL rest2
            else if e = 'b' then Char.ofNat 8 :: unescL rest2
            else if e = 'f' then Char.ofNat 12 :: unescL rest2
            else if e = 'u' then
              match rest2 with
              | h1 :: h2 :: h3 :: h4 :: rest3 =>
                  Char.ofNat (((hexVal h1 * 16 + hexVal h2) * 16 + hexVal h3) * 16 + hexVal h4)
                    :: unescL rest3
              | other => 'u' :: unescL other
            else e :: unescL rest2
      else c :: unescL rest
termination_by l => l.length
decreasing_by all_goals simp_arith

/-- Inverse of `pyEscape`. -/
def pyUnescape (s : String) : String :=
  String.mk (unescL s.data)

/-- The exact file content produced by
`json.dump({'url': ..., 'title': ..., 'text': ..., 'html': ...}, f,
indent=2, ensure_ascii=False)`: a JSON object with those four string
fields in insertion order, two-space indentation and unescaped
non-ASCII characters. -/
def dumpScraped (url title text html : String) : String :=
  "\x7b\n  \"url\": " ++ pyQuote url
    ++ ",\n  \"title\": " ++ pyQuote title
    ++ ",\n  \"text\": " ++ pyQuote text
    ++ ",\n  \"html\": " ++ pyQuote html
    ++ "\n\x7d"

/-- The JSON payload written for `url` when the page rendered as `d`. -/
def dumpDoc (url : String) (d : Document) : String :=
  dumpScraped url (extractContent d).title (extractContent d).text (extractContent d).html

/-! ## The file system and the environment -/

/-- The on-disk state: an association list from path to file content. -/
abbrev FS := List (String × String)

/-- Create or overwrite the file at key `k` with content `v`. -/
def setKV (m : FS) (k v : String) : FS :=
  m.filter (fun kv => kv.1 != k) ++ [(k, v)]

/-- Outcome of one `open(..., "w")`/write sequence, chosen by the disk
environment.  `midFail n msg` raises after the file was created and the
first `n` characters were written, leaving a partial file. -/
inductive WriteOutcome where
  | ok : WriteOutcome
  | openFail (msg : String) : WriteOutcome
  | midFail (n : Nat) (msg : String) : WriteOutcome
  deriving DecidableEq

/-- Environment outcome for one fixed-list URL, mirroring where the
`try` body of `scrape_page` can raise: `page.goto`,
`page.wait_for_selector`, `page.evaluate`, or the file write.  On
`extracted d w` the page rendered as document `d` and the write behaves
as `w`. -/
inductive UrlOutcome where
  | navFail (msg : String) : UrlOutcome
  | selFail (msg : String) : UrlOutcome
  | evalFail (msg : String) : UrlOutcome
  | extracted (d : Document) (w : WriteOutcome) : UrlOutcome
  deriving DecidableEq

/-- Environment outcome for the trailing Notion page: its `page.goto`,
its `page.evaluate`, and its file write. -/
inductive NotionOutcome where
  | navFail (msg : String) : NotionOutcome
  | evalFail (msg : String) : NotionOutcome
  | rendered (bodyText : String) (w : WriteOutcome) : NotionOutcome
  deriving DecidableEq

/-- The whole run's environment: one outcome per fixed-list index, and
the Notion-page outcome. -/
structure RunEnv where
  pages : Nat → UrlOutcome
  notion : NotionOutcome

/-- Observable result of a run: final disk state, printed lines, the
in-memory `results` dict, whether `browser.close()` was reached, and
the uncaught exception (if any) that `asyncio.run` propagates. -/
structure RunResult where
  fs : FS
  log : List String
  results : List (String × String)
  closed : Bool
  err : Option String

/-! ## The script -/

/-- The hardcoded fixed list of documentation URLs. -/
def DOCS_URLS : List String :=
  [ "https://hyperping.com/docs/api/overview",
    "https://hyperping.com/docs/api/monitors",
    "https://hyperping.com/docs/api/statuspages",
    "https://hyperping.com/docs/api/maintenance",
    "https://hyperping.com/docs/api/incidents",
    "https://hyperping.com/docs/api/outages",
    "https://hyperping.com/docs/api/healthchecks",
    "https://hyperping.com/docs/api/reports" ]

/-- The hardcoded Notion page URL. -/
def NOTION_URL : String :=
  "https://hyperping.notion.site/Hyperping-API-documentation-a0dc48fb818e4542a8f7fb4163ede2c3"

/-- Output path of the Notion text file. -/
def NOTION_FILE : String := "docs_scraped/notion_api_docs.txt"

/-- Output path for a fixed-list URL: `docs_scraped/` plus the URL's
last path segment plus `.json`. -/
def outputFile (url : String) : String :=
  "docs_scraped/" ++ lastSegment url ++ ".json"

/-- The `print(f"Scraping: 〈url〉")` line. -/
def scrapingLine (url : String) : String := "Scraping: " ++ url

/-- The `print` line of the per-URL `except` branch. -/
def errorLine (url msg : String) : String := "❌ Error scraping " ++ url ++ ": " ++ msg

/-- The `print` line after a successful per-URL file write. -/
def savedLine (output_file : String) : String := "✅ Saved to " ++ output_file

/-- The line printed before the Notion page is visited. -/
def notionBanner : String := "\nScraping Notion page..."

/-- The line printed after the Notion file write. -/
def notionSavedLine : String := "✅ Saved Notion docs to docs_scraped/notion_api_docs.txt"

/-- Sixty equals signs, the separator of the summary block: the model of
the f-string piece repeating one equals sign 60 times. -/
def eq60 : String := String.mk (List.replicate 60 '=')

/-- The summary line reporting the number of entries of `results`. -/
def countLine (n : Nat) : String := "Scraped " ++ toString n ++ " pages successfully"

/-- The summary line naming the output directory. -/
def outputDirLine : String := "Output directory: ./docs_scraped/"

/-- The body of `scrape_page(page, url, output_file)`: given the
environment outcome for this URL, returns the updated disk, the printed
lines, and the Python return value (`content['text']` on success,
`None` when the broad `except` caught a failure). -/
def scrape_page (o : UrlOutcome) (fs : FS) (url output_file : String) :
    FS × List String × Option String :=
  match o with
  | .navFail m => (fs, [scrapingLine url, errorLine url m], none)
  | .selFail m => (fs, [scrapingLine url, errorLine url m], none)
  | .evalFail m => (fs, [scrapingLine url, errorLine url m], none)
  | .extracted d w =>
      let content := extractContent d
      let payload := dumpScraped url content.title content.text content.html
      match w with
      | .ok => (setKV fs output_file payload, [scrapingLine url, savedLine output_file], some content.text)
      | .openFail m => (fs, [scrapingLine url, errorLine url m], none)
      | .midFail n m => (setKV fs output_file (strTake n payload), [scrapingLine url, errorLine url m], none)

/-- The fixed-list loop of `main`: iterates `scrape_page` over the URLs,
threading the disk, the printed lines and the `results` dict.  A result
is recorded only when the returned content is truthy (`if content:`),
i.e. not `None` and not the empty string. -/
def runUrls (env : Nat → UrlOutcome) :
    Nat → FS → List String → List (String × String) → List String →
    FS × List String × List (String × String)
  | _, fs, log, results, [] => (fs, log, results)
  | i, fs, log, results, url :: rest =>
      let page_name := lastSegment url
      let r := scrape_page (env i) fs url (outputFile url)
      let results2 :=
        match r.2.2 with
        | some content => if content != "" then setKV results page_name content else results
        | none => results
      runUrls env (i + 1) r.1 (log ++ r.2.1) results2 rest

/-- The body of `main()`: the fixed-list loop, then the unguarded Notion
step (banner print, navigation, extraction, file write), then
`browser.close()`, then the summary block.  An uncaught failure in the
Notion step stops the run there: `closed` stays false, no summary is
printed, and the exception is recorded in `err`. -/
def main (env : RunEnv) : RunResult :=
  let r := runUrls env.pages 0 [] [] [] DOCS_URLS
  let log := r.2.1 ++ [notionBanner]
  match env.notion with
  | .navFail m => ⟨r.1, log, r.2.2, false, some m⟩
  | .evalFail m => ⟨r.1, log, r.2.2, false, some m⟩
  | .rendered t w =>
      match w with
      | .openFail m => ⟨r.1, log, r.2.2, false, some m⟩
      | .midFail n m => ⟨setKV r.1 NOTION_FILE (strTake n t), log, r.2.2, false, some m⟩
      | .ok =>
          ⟨setKV r.1 NOTION_FILE t,
           log ++ [notionSavedLine]
               ++ ["\n" ++ eq60, countLine r.2.2.length, outputDirLine, eq60],
           r.2.2, true, none⟩

/-- The process exit status: `asyncio.run(main())` exits 0 unless an
exception propagates out of `main`, in which case the interpreter exits
non-zero (modelled as 1). -/
def exitCode (env : RunEnv) : Nat :=
  match (main env).err with
  | none => 0
  | some _ => 1

/-! ## Derived views of one URL's processing -/

/-- The file content (if any) that processing a URL with outcome `o`
leaves at its output path. -/
def fileResult (url : String) : UrlOutcome → Option String
  | .extracted d .ok => some (dumpDoc url d)
  | .extracted d (.midFail n _) => some (strTake n (dumpDoc url d))
  | _ => none

/-- The Python return value of `scrape_page` under outcome `o`. -/
def retResult : UrlOutcome → Option String
  | .extracted d .ok => some (extractContent d).text
  | _ => none

/-- The `results` entry (if any) that `main` records for outcome `o`:
present exactly when the returned text is truthy. -/
def recorded (o : UrlOutcome) : Option String :=
  match retResult o with
  | some s => if s != "" then some s else none
  | none => none

/-- The lines `scrape_page` prints under outcome `o`. -/
def scrapeLog (url output_file : String) : UrlOutcome → List String
  | .extracted _ .ok => [scrapingLine url, savedLine output_file]
  | .extracted _ (.openFail m) => [scrapingLine url, errorLine url m]
  | .extracted _ (.midFail _ m) => [scrapingLine url, errorLine url m]
  | .navFail m => [scrapingLine url, errorLine url m]
  | .selFail m => [scrapingLine url, errorLine url m]
  | .evalFail m => [scrapingLine url, errorLine url m]

/-- Outcomes that fail before any data reaches the output file:
navigation, selector wait, extraction, or the `open` call itself. -/
def failsCleanly : UrlOutcome → Bool
  | .navFail _ => true
  | .selFail _ => true
  | .evalFail _ => true
  | .extracted _ (.openFail _) => true
  | _ => false

/-- The message of the exception an outcome raises (empty for full
success). -/
def errMsgOf : UrlOutcome → String
  | .navFail m => m
  | .selFail m => m
  | .evalFail m => m
  | .extracted _ (.openFail m) => m
  | .extracted _ (.midFail _ m) => m
  | .extracted _ .ok => ""

/-- Did the outcome reach the extraction step successfully? -/
def extractedB : UrlOutcome → Bool
  | .extracted _ _ => true
  | _ => false

/-- The text the extraction step yielded (empty when extraction was
never reached). -/
def extractedText : UrlOutcome → String
  | .extracted d _ => (extractContent d).text
  | _ => ""

/-- The outcome's write step did not fail (vacuous when extraction was
never reached). -/
def writeOk : UrlOutcome → Prop
  | .extracted _ w => w = WriteOutcome.ok
  | _ => True

/-- Does the Notion-page step run to completion? -/
def notionOk : NotionOutcome → Bool
  | .rendered _ .ok => true
  | _ => false

/-- Is the path a `.json` file name? -/
def isJsonFile (k : String) : Bool :=
  k.data.reverse.take 5 == ['n', 'o', 's', 'j', '.']

/-- Number of `.json` files on disk. -/
def jsonFileCount (fs : FS) : Nat :=
  (fs.filter (fun kv => isJsonFile kv.1)).length

/-- Does a printed line start with the error marker? -/
def startsErr (l : String) : Bool :=
  l.data.head? == some '❌'

/-! ## What the fixed-list loop leaves behind -/

/-- The files the fixed-list loop creates, in order: one entry per URL
whose outcome writes a file. -/
def expectedFiles (env : Nat → UrlOutcome) : Nat → List String → FS
  | _, [] => []
  | i, url :: rest =>
      match fileResult url (env i) with
      | some s => (outputFile url, s) :: expectedFiles env (i + 1) rest
      | none => expectedFiles env (i + 1) rest

/-- The `results` entries the fixed-list loop records, in order. -/
def expectedResults (env : Nat → UrlOutcome) : Nat → List String → List (String × String)
  | _, [] => []
  | i, url :: rest =>
      match recorded (env i) with
      | some s => (lastSegment url, s) :: expectedResults env (i + 1) rest
      | none => expectedResults env (i + 1) rest

/-- The lines the fixed-list loop prints, in order. -/
def expectedLog (env : Nat → UrlOutcome) : Nat → List String → List String
  | _, [] => []
  | i, url :: rest =>
      scrapeLog url (outputFile url) (env i) ++ expectedLog env (i + 1) rest

/-- The state after the fixed-list loop of a run. -/
def listRun (env : RunEnv) : FS × List String × List (String × String) :=
  runUrls env.pages 0 [] [] [] DOCS_URLS

/-! ## Concrete rendered pages and environments used at concrete inputs -/

/-- A small rendered page: a `main` element holding text and a script. -/
def demoDoc : Document :=
  ⟨"T", .elem "main" [] (.text "hello" (.elem "script" [] (.text "var x" .nil) .nil)) .nil⟩

/-- A rendered page whose `main` container holds no text at all. -/
def emptyDoc : Document :=
  ⟨"T", .elem "main" [] .nil .nil⟩

/-- Environment where URL 0 is extracted but its file write raises after
3 characters, every other fixed URL times out, and the Notion navigation
fails. -/
def c1cexEnv : RunEnv :=
  ⟨fun j => if j = 0 then .extracted demoDoc (.midFail 3 "disk full") else .navFail "timeout",
   .navFail "nav timeout"⟩

/-- Environment where URL 0 extracts an empty text and writes fine, and
everything else fails. -/
def c2cexEnv : RunEnv :=
  ⟨fun j => if j = 0 then .extracted emptyDoc .ok else .navFail "timeout", .navFail "nav"⟩

/-- Environment where every fixed URL fully succeeds and the Notion page
navigation fails. -/
def c2witEnv : RunEnv :=
  ⟨fun _ => .extracted demoDoc .ok, .navFail "nav"⟩

/-- Environment where entry 2 times out at navigation, every other fixed
URL fully succeeds, and the Notion step succeeds. -/
def c3witEnv : RunEnv :=
  ⟨fun j => if j = 2 then .navFail "boom" else .extracted demoDoc .ok,
   .rendered "notion text" .ok⟩

/-- Environment where entry 2 is extracted but its file write raises
after 3 characters, every other fixed URL fully succeeds, and the Notion
step succeeds. -/
def c3cexEnv : RunEnv :=
  ⟨fun j => if j = 2 then .extracted demoDoc (.midFail 3 "disk full")
    else .extracted demoDoc .ok,
   .rendered "notion text" .ok⟩

/-- Environment where the Notion file write raises after 2 characters. -/
def c4cexEnv : RunEnv :=
  ⟨fun _ => .navFail "timeout", .rendered "hello" (.midFail 2 "disk full")⟩

/-- Environment where the Notion navigation fails. -/
def c4witEnv : RunEnv :=
  ⟨fun _ => .navFail "timeout", .navFail "notion nav failed"⟩

/-- Environment where all eight fixed URLs and the Notion step succeed. -/
def c6witEnv : RunEnv :=
  ⟨fun _ => .extracted demoDoc .ok, .rendered "notion" .ok⟩

/-- Environment where every fixed URL succeeds with empty extracted
text. -/
def c9witEnv : RunEnv :=
  ⟨fun _ => .extracted emptyDoc .ok, .navFail "nav"⟩

/-- Environment where the Notion in-page evaluation raises. -/
def c10witEnv : RunEnv :=
  ⟨fun _ => .extracted demoDoc .ok, .evalFail "page crashed"⟩

/-! ## Characterization of `scrape_page` -/

/-- One equation capturing `scrape_page`: the disk effect is given by
`fileResult`, the printed lines by `scrapeLog`, and the return value by
`retResult`. -/
theorem scrape_page_eq (o : UrlOutcome) (fs : FS) (url output_file : String) :
    scrape_page o fs url output_file =
      ((match fileResult url o with
        | some s => setKV fs output_file s
        | none => fs),
       scrapeLog url output_file o, retResult o) := by
  cases o with
  | navFail m => rfl
  | selFail m => rfl
  | evalFail m => rfl
  | extracted d w => cases w <;> rfl

/-! ## Association-list lemmas -/

theorem lookup_filterNe (m : FS) (k : String) :
    (m.filter (fun kv => kv.1 != k)).lookup k = none := by
  rw [List.lookup_eq_none_iff]
  intro p hp
  have h2 : (p.1 != k) = true := (List.mem_filter.1 hp).2
  exact bne_iff_ne.2 (Ne.symm (bne_iff_ne.1 h2))

theorem filterNe_of_lookup_none (m : FS) (k : String) (h : m.lookup k = none) :
    (m.filter (fun kv => kv.1 != k)) = m := by
  rw [List.lookup_eq_none_iff] at h
  rw [List.filter_eq_self]
  intro p hp
  exact bne_iff_ne.2 (Ne.symm (bne_iff_ne.1 (h p hp)))

theorem setKV_of_lookup_none (m : FS) (k v : String) (h : m.lookup k = none) :
    setKV m k v = m ++ [(k, v)] := by
  simp [setKV, filterNe_of_lookup_none m k h]

theorem lookup_setKV_self (m : FS) (k v : String) :
    (setKV m k v).lookup k = some v := by
  unfold setKV
  rw [List.lookup_append, lookup_filterNe m k]
  simp

theorem lookup_filterNe_of_ne (m : FS) (k k' : String) (h : k' ≠ k) :
    (m.filter (fun kv => kv.1 != k)).lookup k' = m.lookup k' := by
  induction m with
  | nil => rfl
  | cons kv rest ih =>
      rw [List.filter_cons]
      by_cases hk : kv.1 = k
      · have hne : (k' == kv.1) = false := beq_eq_false_iff_ne.2 (fun hh => h (hh.trans hk))
        rw [if_neg (by simp [hk]), ih, List.lookup_cons, hne]
      · rw [if_pos (by simp [bne_iff_ne, hk]), List.lookup_cons, List.lookup_cons]
        cases hkk : k' == kv.1
        · exact ih
        · rfl

theorem lookup_setKV_ne (m : FS) (k v k' : String) (h : k' ≠ k) :
    (setKV m k v).lookup k' = m.lookup k' := by
  unfold setKV
  rw [List.lookup_append, lookup_filterNe_of_ne m k k' h]
  cases hm : m.lookup k' with
  | some v' => rfl
  | none =>
      simp [List.lookup_cons, beq_eq_false_iff_ne.2 h]

/-- Unfolding of one loop iteration in terms of the derived views. -/
theorem runUrls_cons (env : Nat → UrlOutcome) (i : Nat) (fs : FS) (log : List String)
    (results : List (String × String)) (url : String) (rest : List String) :
    runUrls env i fs log results (url :: rest) =
      runUrls env (i + 1)
        (match fileResult url (env i) with
         | some s => setKV fs (outputFile url) s
         | none => fs)
        (log ++ scrapeLog url (outputFile url) (env i))
        (match recorded (env i) with
         | some s => setKV results (lastSegment url) s
         | none => results)
        rest := by
  simp only [runUrls, scrape_page_eq]
  rcases h : retResult (env i) with _ | s
  · simp [recorded, h]
  · simp only [recorded, h]
    by_cases hs : s != ""
    · simp [hs]
    · simp [hs]

theorem runUrls_log_eq (urls : List String) :
    ∀ (env : Nat → UrlOutcome) (i : Nat) (fs : FS) (log : List String)
      (results : List (String × String)),
    (runUrls env i fs log results urls).2.1 = log ++ expectedLog env i urls := by
  induction urls with
  | nil => intro env i fs log results; simp [runUrls, expectedLog]
  | cons url rest ih =>
      intro env i fs log results
      rw [runUrls_cons, ih, expectedLog, List.append_assoc]

theorem runUrls_fs_lookup_other (urls : List String) :
    ∀ (env : Nat → UrlOutcome) (i : Nat) (fs : FS) (log : List String)
      (results : List (String × String)) (k : String),
    k ∉ urls.map outputFile →
    (runUrls env i fs log results urls).1.lookup k = fs.lookup k := by
  induction urls with
  | nil => intro env i fs log results k _; rfl
  | cons url rest ih =>
      intro env i fs log results k hk
      rw [runUrls_cons]
      have hhd : k ≠ outputFile url := fun h => hk (h ▸ List.mem_map_of_mem outputFile (List.mem_cons_self _ _))
      have htl : k ∉ rest.map outputFile := fun h => hk (by simp [List.mem_map] at h ⊢; tauto)
      rcases hf : fileResult url (env i) with _ | s
      · exact ih _ _ _ _ _ _ htl
      · rw [ih _ _ _ _ _ _ htl, lookup_setKV_ne _ _ _ _ hhd]

theorem runUrls_results_lookup_other (urls : List String) :
    ∀ (env : Nat → UrlOutcome) (i : Nat) (fs : FS) (log : List String)
      (results : List (String × String)) (k : String),
    k ∉ urls.map lastSegment →
    (runUrls env i fs log results urls).2.2.lookup k = results.lookup k := by
  induction urls with
  | nil => intro env i fs log results k _; rfl
  | cons url rest ih =>
      intro env i fs log results k hk
      rw [runUrls_cons]
      have hhd : k ≠ lastSegment url := fun h => hk (h ▸ List.mem_map_of_mem lastSegment (List.mem_cons_self _ _))
      have htl : k ∉ rest.map lastSegment := fun h => hk (by simp [List.mem_map] at h ⊢; tauto)
      rcases hf : recorded (env i) with _ | s
      · exact ih _ _ _ _ _ _ htl
      · rw [ih _ _ _ _ _ _ htl, lookup_setKV_ne _ _ _ _ hhd]

theorem runUrls_fs_char (urls : List String) :
    ∀ (env : Nat → UrlOutcome) (i : Nat) (fs : FS) (log : List String)
      (results : List (String × String)),
    (urls.map outputFile).Nodup →
    (∀ u ∈ urls, fs.lookup (outputFile u) = none) →
    (runUrls env i fs log results urls).1 = fs ++ expectedFiles env i urls := by
  induction urls with
  | nil => intro env i fs log results _ _; simp [runUrls, expectedFiles]
  | cons url rest ih =>
      intro env i fs log results hnd hfresh
      have hnd' := (List.nodup_cons.1 hnd)
      rw [runUrls_cons]
      rcases hf : fileResult url (env i) with _ | s
      · rw [ih _ _ _ _ _ hnd'.2 (fun u hu => hfresh u (List.mem_cons_of_mem _ hu))]
        simp [expectedFiles, hf]
      · have hset : setKV fs (outputFile url) s = fs ++ [(outputFile url, s)] :=
          setKV_of_lookup_none _ _ _ (hfresh url (List.mem_cons_self _ _))
        dsimp only
        rw [hset, ih _ _ _ _ _ hnd'.2 ?fresh]
        · simp [expectedFiles, hf, List.append_assoc]
        case fresh =>
          intro u hu
          rw [List.lookup_append, hfresh u (List.mem_cons_of_mem _ hu)]
          have hne : outputFile u ≠ outputFile url :=
            fun h => hnd'.1 (h ▸ List.mem_map_of_mem outputFile hu)
          simp [List.lookup_cons, beq_eq_false_iff_ne.2 hne]

theorem runUrls_results_char (urls : List String) :
    ∀ (env : Nat → UrlOutcome) (i : Nat) (fs : FS) (log : List String)
      (results : List (String × String)),
    (urls.map lastSegment).Nodup →
    (∀ u ∈ urls, results.lookup (lastSegment u) = none) →
    (runUrls env i fs log results urls).2.2 = results ++ expectedResults env i urls := by
  induction urls with
  | nil => intro env i fs log results _ _; simp [runUrls, expectedResults]
  | cons url rest ih =>
      intro env i fs log results hnd hfresh
      have hnd' := (List.nodup_cons.1 hnd)
      rw [runUrls_cons]
      rcases hf : recorded (env i) with _ | s
      · rw [ih _ _ _ _ _ hnd'.2 (fun u hu => hfresh u (List.mem_cons_of_mem _ hu))]
        simp [expectedResults, hf]
      · have hset : setKV results (lastSegment url) s = results ++ [(lastSegment url, s)] :=
          setKV_of_lookup_none _ _ _ (hfresh url (List.mem_cons_self _ _))
        dsimp only
        rw [hset, ih _ _ _ _ _ hnd'.2 ?fresh]
        · simp [expectedResults, hf, List.append_assoc]
        case fresh =>
          intro u hu
          rw [List.lookup_append, hfresh u (List.mem_cons_of_mem _ hu)]
          have hne : lastSegment u ≠ lastSegment url :=
            fun h => hnd'.1 (h ▸ List.mem_map_of_mem lastSegment hu)
          simp [List.lookup_cons, beq_eq_false_iff_ne.2 hne]

theorem expectedFiles_lookup_other (urls : List String) :
    ∀ (env : Nat → UrlOutcome) (i : Nat) (k : String),
    k ∉ urls.map outputFile →
    (expectedFiles env i urls).lookup k = none := by
  induction urls with
  | nil => intro env i k _; rfl
  | cons url rest ih =>
      intro env i k hk
      have hhd : k ≠ outputFile url := fun h => hk (h ▸ List.mem_map_of_mem outputFile (List.mem_cons_self _ _))
      have htl : k ∉ rest.map outputFile := fun h => hk (by simp [List.mem_map] at h ⊢; tauto)
      rcases hf : fileResult url (env i) with _ | s <;>
        simp [expectedFiles, hf, List.lookup_cons, beq_eq_false_iff_ne.2 hhd, ih _ _ _ htl]

theorem expectedResults_lookup_other (urls : List String) :
    ∀ (env : Nat → UrlOutcome) (i : Nat) (k : String),
    k ∉ urls.map lastSegment →
    (expectedResults env i urls).lookup k = none := by
  induction urls with
  | nil => intro env i k _; rfl
  | cons url rest ih =>
      intro env i k hk
      have hhd : k ≠ lastSegment url := fun h => hk (h ▸ List.mem_map_of_mem lastSegment (List.mem_cons_self _ _))
      have htl : k ∉ rest.map lastSegment := fun h => hk (by simp [List.mem_map] at h ⊢; tauto)
      rcases hf : recorded (env i) with _ | s <;>
        simp [expectedResults, hf, List.lookup_cons, beq_eq_false_iff_ne.2 hhd, ih _ _ _ htl]

theorem expectedFiles_lookup (urls : List String) :
    ∀ (env : Nat → UrlOutcome) (i : Nat) (j : Nat) (hj : j < urls.length),
    (urls.map outputFile).Nodup →
    (expectedFiles env i urls).lookup (outputFile urls[j]) =
      fileResult urls[j] (env (i + j)) := by
  induction urls with
  | nil => intro env i j hj; exact absurd hj (by simp)
  | cons url rest ih =>
      intro env i j hj hnd
      have hnd' := List.nodup_cons.1 hnd
      cases j with
      | zero =>
          rcases hf : fileResult url (env i) with _ | s
          · simpa [expectedFiles, hf] using
              expectedFiles_lookup_other rest (env) (i + 1) _ hnd'.1
          · simp [expectedFiles, hf]
      | succ j' =>
          have hj' : j' < rest.length := Nat.lt_of_succ_lt_succ hj
          have hmem : outputFile rest[j'] ∈ rest.map outputFile :=
            List.mem_map_of_mem outputFile (List.getElem_mem hj')
          have hne : outputFile rest[j'] ≠ outputFile url :=
            fun h => hnd'.1 (h ▸ hmem)
          have ihr := ih env (i + 1) j' hj' hnd'.2
          rw [show i + 1 + j' = i + (j' + 1) by omega] at ihr
          rcases hf : fileResult url (env i) with _ | s <;>
            simp [expectedFiles, hf, List.lookup_cons, beq_eq_false_iff_ne.2 hne, ihr]

theorem expectedResults_lookup (urls : List String) :
    ∀ (env : Nat → UrlOutcome) (i : Nat) (j : Nat) (hj : j < urls.length),
    (urls.map lastSegment).Nodup →
    (expectedResults env i urls).lookup (lastSegment urls[j]) =
      recorded (env (i + j)) := by
  induction urls with
  | nil => intro env i j hj; exact absurd hj (by simp)
  | cons url rest ih =>
      intro env i j hj hnd
      have hnd' := List.nodup_cons.1 hnd
      cases j with
      | zero =>
          rcases hf : recorded (env i) with _ | s
          · simpa [expectedResults, hf] using
              expectedResults_lookup_other rest (env) (i + 1) _ hnd'.1
          · simp [expectedResults, hf]
      | succ j' =>
          have hj' : j' < rest.length := Nat.lt_of_succ_lt_succ hj
          have hmem : lastSegment rest[j'] ∈ rest.map lastSegment :=
            List.mem_map_of_mem lastSegment (List.getElem_mem hj')
          have hne : lastSegment rest[j'] ≠ lastSegment url :=
            fun h => hnd'.1 (h ▸ hmem)
          have ihr := ih env (i + 1) j' hj' hnd'.2
          rw [show i + 1 + j' = i + (j' + 1) by omega] at ihr
          rcases hf : recorded (env i) with _ | s <;>
            simp [expectedResults, hf, List.lookup_cons, beq_eq_false_iff_ne.2 hne, ihr]

/-! ## Bridging the fixed-list loop and `main` -/

theorem main_results_eq (env : RunEnv) : (main env).results = (listRun env).2.2 := by
  obtain ⟨pages, notion⟩ := env
  unfold main listRun
  rcases notion with m | m | ⟨t, w⟩
  · rfl
  · rfl
  · cases w <;> rfl

theorem main_closed_eq (env : RunEnv) : (main env).closed = notionOk env.notion := by
  obtain ⟨pages, notion⟩ := env
  unfold main notionOk
  rcases notion with m | m | ⟨t, w⟩
  · rfl
  · rfl
  · cases w <;> rfl

theorem main_err_eq_none_iff (env : RunEnv) :
    (main env).err = none ↔ notionOk env.notion = true := by
  obtain ⟨pages, notion⟩ := env
  unfold main notionOk
  rcases notion with m | m | ⟨t, w⟩
  · simp
  · simp
  · cases w <;> simp

theorem main_fs_lookup_eq (env : RunEnv) (k : String) (hk : k ≠ NOTION_FILE) :
    (main env).fs.lookup k = (listRun env).1.lookup k := by
  obtain ⟨pages, notion⟩ := env
  unfold main listRun
  rcases notion with m | m | ⟨t, w⟩
  · rfl
  · rfl
  · cases w with
    | ok => exact lookup_setKV_ne _ _ _ _ hk
    | openFail m => rfl
    | midFail n m => exact lookup_setKV_ne _ _ _ _ hk

theorem main_log_shape (env : RunEnv) :
    ∃ tail, (main env).log = (listRun env).2.1 ++ notionBanner :: tail := by
  obtain ⟨pages, notion⟩ := env
  unfold main listRun
  rcases notion with m | m | ⟨t, w⟩
  · exact ⟨[], rfl⟩
  · exact ⟨[], rfl⟩
  · cases w with
    | ok =>
        refine ⟨[notionSavedLine, "\n" ++ eq60,
          countLine (runUrls pages 0 [] [] [] DOCS_URLS).2.2.length, outputDirLine, eq60], ?_⟩
        simp
    | openFail m => exact ⟨[], rfl⟩
    | midFail n m => exact ⟨[], rfl⟩

theorem main_log_of_notion_fails (env : RunEnv) (h : notionOk env.notion = false) :
    (main env).log = (listRun env).2.1 ++ [notionBanner] := by
  obtain ⟨pages, notion⟩ := env
  unfold main listRun
  rcases notion with m | m | ⟨t, w⟩
  · rfl
  · rfl
  · cases w with
    | ok => exact absurd h (by simp [notionOk])
    | openFail m => rfl
    | midFail n m => rfl

theorem main_log_mem (env : RunEnv) (l : String) (hl : l ∈ (listRun env).2.1) :
    l ∈ (main env).log := by
  obtain ⟨tail, ht⟩ := main_log_shape env
  rw [ht]
  exact List.mem_append_left _ hl

theorem main_banner_mem (env : RunEnv) : notionBanner ∈ (main env).log := by
  obtain ⟨tail, ht⟩ := main_log_shape env
  rw [ht]
  exact List.mem_append_right _ (List.mem_cons_self _ _)

/-! ## Counting JSON files -/

theorem isJsonFile_append (s : String) : isJsonFile (s ++ ".json") = true := by
  unfold isJsonFile
  rw [show (s ++ ".json").data = s.data ++ ('.' :: 'j' :: 's' :: 'o' :: 'n' :: []) from rfl,
    List.reverse_append]
  rfl

theorem isJsonFile_outputFile (url : String) : isJsonFile (outputFile url) = true :=
  isJsonFile_append ("docs_scraped/" ++ lastSegment url)

theorem isJsonFile_notion : isJsonFile NOTION_FILE = false := by decide

theorem outputFile_ne_notion (url : String) : outputFile url ≠ NOTION_FILE := by
  intro h
  have := isJsonFile_outputFile url
  rw [h, isJsonFile_notion] at this
  cases this

theorem jsonFileCount_append (a b : FS) :
    jsonFileCount (a ++ b) = jsonFileCount a + jsonFileCount b := by
  simp [jsonFileCount, List.filter_append]

theorem jsonFileCount_filterNe (fs : FS) (k : String) (h : isJsonFile k = false) :
    jsonFileCount (fs.filter (fun kv => kv.1 != k)) = jsonFileCount fs := by
  induction fs with
  | nil => rfl
  | cons kv rest ih =>
      rw [List.filter_cons]
      by_cases hk : kv.1 = k
      · rw [if_neg (by simp [hk]), ih]
        unfold jsonFileCount
        rw [List.filter_cons, hk, h]
        simp
      · rw [if_pos (by simp [bne_iff_ne, hk])]
        unfold jsonFileCount
        rw [List.filter_cons, List.filter_cons]
        cases hj : isJsonFile kv.1
        · rw [if_neg (by simp [hj]), if_neg (by simp [hj])]
          exact ih
        · rw [if_pos (by simp [hj]), if_pos (by simp [hj])]
          exact congrArg Nat.succ ih

theorem jsonFileCount_setKV (fs : FS) (k v : String) (h : isJsonFile k = false) :
    jsonFileCount (setKV fs k v) = jsonFileCount fs := by
  unfold setKV
  rw [jsonFileCount_append, jsonFileCount_filterNe fs k h]
  unfold jsonFileCount
  rw [List.filter_cons, h]
  simp

theorem main_jsonCount_eq (env : RunEnv) :
    jsonFileCount (main env).fs = jsonFileCount (listRun env).1 := by
  obtain ⟨pages, notion⟩ := env
  unfold main listRun
  rcases notion with m | m | ⟨t, w⟩
  · rfl
  · rfl
  · cases w with
    | ok => exact jsonFileCount_setKV _ _ _ isJsonFile_notion
    | openFail m => rfl
    | midFail n m => exact jsonFileCount_setKV _ _ _ isJsonFile_notion

/-! ## The JSON string escaping is lossless and leaves non-ASCII intact -/

theorem hexVal_hexDig (m : Nat) (h : m < 16) : hexVal (hexDig m) = m := by
  interval_cases m <;> rfl

theorem escC_of_ge128 (c : Char) (h : 128 ≤ c.toNat) : escC c = [c] := by
  have n1 : c ≠ '\\' := fun hc => absurd (hc ▸ h) (by decide)
  have n2 : c ≠ '"' := fun hc => absurd (hc ▸ h) (by decide)
  have n3 : c ≠ '\n' := fun hc => absurd (hc ▸ h) (by decide)
  have n4 : c ≠ '\t' := fun hc => absurd (hc ▸ h) (by decide)
  have n5 : c ≠ '\r' := fun hc => absurd (hc ▸ h) (by decide)
  have n6 : c.toNat ≠ 8 := by omega
  have n7 : c.toNat ≠ 12 := by omega
  have n8 : ¬c.toNat < 32 := by omega
  unfold escC
  rw [if_neg n1, if_neg n2, if_neg n3, if_neg n4, if_neg n5, if_neg n6, if_neg n7, if_neg n8]

theorem unescL_backslash (Y : List Char) : unescL ('\\' :: '\\' :: Y) = '\\' :: unescL Y := by
  rw [unescL.eq_def]; simp

theorem unescL_quote (Y : List Char) : unescL ('\\' :: '"' :: Y) = '"' :: unescL Y := by
  rw [unescL.eq_def]; simp

theorem unescL_n (Y : List Char) : unescL ('\\' :: 'n' :: Y) = '\n' :: unescL Y := by
  rw [unescL.eq_def]; simp

theorem unescL_t (Y : List Char) : unescL ('\\' :: 't' :: Y) = '\t' :: unescL Y := by
  rw [unescL.eq_def]; simp

theorem unescL_r (Y : List Char) : unescL ('\\' :: 'r' :: Y) = '\r' :: unescL Y := by
  rw [unescL.eq_def]; simp

theorem unescL_b (Y : List Char) : unescL ('\\' :: 'b' :: Y) = Char.ofNat 8 :: unescL Y := by
  rw [unescL.eq_def]; simp

theorem unescL_f (Y : List Char) : unescL ('\\' :: 'f' :: Y) = Char.ofNat 12 :: unescL Y := by
  rw [unescL.eq_def]; simp

theorem unescL_hex (d1 d2 : Char) (Y : List Char) :
    unescL ('\\' :: 'u' :: '0' :: '0' :: d1 :: d2 :: Y) =
      Char.ofNat (((hexVal '0' * 16 + hexVal '0') * 16 + hexVal d1) * 16 + hexVal d2)
        :: unescL Y := by
  rw [unescL.eq_def]; simp

theorem unescL_plain (c : Char) (h : ¬c = '\\') (Y : List Char) :
    unescL (c :: Y) = c :: unescL Y := by
  rw [unescL.eq_def]
  simp only []
  rw [if_neg h]

theorem unescL_escL (l : List Char) : unescL (escL l) = l := by
  induction l with
  | nil => rw [escL, unescL.eq_def]
  | cons c rest ih =>
      rw [escL]
      by_cases h1 : c = '\\'
      · subst h1
        show unescL ('\\' :: '\\' :: escL rest) = '\\' :: rest
        rw [unescL_backslash, ih]
      by_cases h2 : c = '"'
      · subst h2
        show unescL ('\\' :: '"' :: escL rest) = '"' :: rest
        rw [unescL_quote, ih]
      by_cases h3 : c = '\n'
      · subst h3
        show unescL ('\\' :: 'n' :: escL rest) = '\n' :: rest
        rw [unescL_n, ih]
      by_cases h4 : c = '\t'
      · subst h4
        show unescL ('\\' :: 't' :: escL rest) = '\t' :: rest
        rw [unescL_t, ih]
      by_cases h5 : c = '\r'
      · subst h5
        show unescL ('\\' :: 'r' :: escL rest) = '\r' :: rest
        rw [unescL_r, ih]
      by_cases h6 : c.toNat = 8
      · have hc : c = Char.ofNat 8 := by rw [← h6, Char.ofNat_toNat]
        subst hc
        show unescL ('\\' :: 'b' :: escL rest) = Char.ofNat 8 :: rest
        rw [unescL_b, ih]
      by_cases h7 : c.toNat = 12
      · have hc : c = Char.ofNat 12 := by rw [← h7, Char.ofNat_toNat]
        subst hc
        show unescL ('\\' :: 'f' :: escL rest) = Char.ofNat 12 :: rest
        rw [unescL_f, ih]
      by_cases h8 : c.toNat < 32
      · have hesc : escC c =
            '\\' :: 'u' :: '0' :: '0' :: hexDig (c.toNat / 16) :: hexDig (c.toNat % 16) :: [] := by
          unfold escC
          rw [if_neg h1, if_neg h2, if_neg h3, if_neg h4, if_neg h5, if_neg h6, if_neg h7,
            if_pos h8]
        rw [hesc]
        show unescL ('\\' :: 'u' :: '0' :: '0' :: hexDig (c.toNat / 16)
            :: hexDig (c.toNat % 16) :: escL rest) = c :: rest
        rw [unescL_hex, ih]
        have hdiv : c.toNat / 16 < 16 := by omega
        have hmod : c.toNat % 16 < 16 := by omega
        have key : ((hexVal '0' * 16 + hexVal '0') * 16 + hexVal (hexDig (c.toNat / 16)))
              * 16 + hexVal (hexDig (c.toNat % 16)) = c.toNat := by
          rw [show hexVal '0' = 0 from rfl, hexVal_hexDig _ hdiv, hexVal_hexDig _ hmod]
          omega
        rw [key, Char.ofNat_toNat]
      · have hesc : escC c = [c] := by
          unfold escC
          rw [if_neg h1, if_neg h2, if_neg h3, if_neg h4, if_neg h5, if_neg h6, if_neg h7,
            if_neg h8]
        rw [hesc]
        show unescL (c :: escL rest) = c :: rest
        rw [unescL_plain c h1, ih]

/-- Round trip of the whole-string escape. -/
theorem pyUnescape_pyEscape (s : String) : pyUnescape (pyEscape s) = s := by
  obtain ⟨l⟩ := s
  show String.mk (unescL (escL l)) = String.mk l
  rw [unescL_escL]

/-! ## Printed lines are distinguishable -/

theorem startsErr_scrapingLine (u : String) : startsErr (scrapingLine u) = false := rfl

theorem startsErr_savedLine (f : String) : startsErr (savedLine f) = false := rfl

theorem startsErr_errorLine (u m : String) : startsErr (errorLine u m) = true := rfl

theorem startsErr_notionBanner : startsErr notionBanner = false := rfl

theorem startsErr_notionSavedLine : startsErr notionSavedLine = false := rfl

theorem startsErr_sep : startsErr ("\n" ++ eq60) = false := rfl

theorem startsErr_eq60 : startsErr eq60 = false := rfl

theorem startsErr_countLine (n : Nat) : startsErr (countLine n) = false := rfl

theorem startsErr_outputDirLine : startsErr outputDirLine = false := rfl

theorem countLine_ne_scrapingLine (n : Nat) (u : String) : countLine n ≠ scrapingLine u := by
  intro h
  have h5 : (countLine n).data[5]? = (scrapingLine u).data[5]? := by rw [h]
  rw [show (countLine n).data[5]? = some 'e' from rfl,
    show (scrapingLine u).data[5]? = some 'i' from rfl] at h5
  exact absurd (Option.some.inj h5) (by decide)

theorem countLine_ne_errorLine (n : Nat) (u m : String) : countLine n ≠ errorLine u m := by
  intro h
  have h0 : (countLine n).data[0]? = (errorLine u m).data[0]? := by rw [h]
  rw [show (countLine n).data[0]? = some 'S' from rfl,
    show (errorLine u m).data[0]? = some '❌' from rfl] at h0
  exact absurd (Option.some.inj h0) (by decide)

theorem countLine_ne_savedLine (n : Nat) (f : String) : countLine n ≠ savedLine f := by
  intro h
  have h0 : (countLine n).data[0]? = (savedLine f).data[0]? := by rw [h]
  rw [show (countLine n).data[0]? = some 'S' from rfl,
    show (savedLine f).data[0]? = some '✅' from rfl] at h0
  exact absurd (Option.some.inj h0) (by decide)

theorem countLine_ne_notionBanner (n : Nat) : countLine n ≠ notionBanner := by
  intro h
  have h0 : (countLine n).data[0]? = notionBanner.data[0]? := by rw [h]
  rw [show (countLine n).data[0]? = some 'S' from rfl,
    show notionBanner.data[0]? = some '\n' from rfl] at h0
  exact absurd (Option.some.inj h0) (by decide)

theorem outputDirLine_ne_scrapeLogLine (u m f : String) :
    outputDirLine ≠ scrapingLine u ∧ outputDirLine ≠ errorLine u m ∧
      outputDirLine ≠ savedLine f ∧ outputDirLine ≠ notionBanner := by
  refine ⟨?_, ?_, ?_, ?_⟩ <;> intro h
  · have h0 : outputDirLine.data[0]? = (scrapingLine u).data[0]? := by rw [h]
    rw [show outputDirLine.data[0]? = some 'O' from rfl,
      show (scrapingLine u).data[0]? = some 'S' from rfl] at h0
    exact absurd (Option.some.inj h0) (by decide)
  · have h0 : outputDirLine.data[0]? = (errorLine u m).data[0]? := by rw [h]
    rw [show outputDirLine.data[0]? = some 'O' from rfl,
      show (errorLine u m).data[0]? = some '❌' from rfl] at h0
    exact absurd (Option.some.inj h0) (by decide)
  · have h0 : outputDirLine.data[0]? = (savedLine f).data[0]? := by rw [h]
    rw [show outputDirLine.data[0]? = some 'O' from rfl,
      show (savedLine f).data[0]? = some '✅' from rfl] at h0
    exact absurd (Option.some.inj h0) (by decide)
  · have h0 : outputDirLine.data[0]? = notionBanner.data[0]? := by rw [h]
    rw [show outputDirLine.data[0]? = some 'O' from rfl,
      show notionBanner.data[0]? = some '\n' from rfl] at h0
    exact absurd (Option.some.inj h0) (by decide)

/-! ## Stripping really removes every script and style element -/

theorem containsSS_stripSS (d : Dom) : containsSS (stripSS d) = false := by
  induction d with
  | nil => rfl
  | text s sib ih => simpa [stripSS, containsSS] using ih
  | elem tag cls child sib ihc ihs =>
      by_cases h : isSSTag tag
      · simpa [stripSS, h] using ihs
      · simp [stripSS, h, containsSS, ihc, ihs]

theorem stripSS_of_ssFree (d : Dom) (h : containsSS d = false) : stripSS d = d := by
  induction d with
  | nil => rfl
  | text s sib ih =>
      rw [containsSS] at h
      rw [stripSS, ih h]
  | elem tag cls child sib ihc ihs =>
      rw [containsSS] at h
      rcases Bool.or_eq_false_iff.1 h with ⟨h1, h23⟩
      rcases Bool.or_eq_false_iff.1 h1 with ⟨hts, hc⟩
      rw [stripSS, if_neg (by simp [hts]), ihc hc, ihs h23]

theorem stripAtFirst_of_ssFree (p : String → List String → Bool) (d : Dom)
    (h : containsSS d = false) : (stripAtFirst p d).1 = d := by
  induction d with
  | nil => rfl
  | text s sib ih =>
      rw [containsSS] at h
      simp [stripAtFirst, ih h]
  | elem tag cls child sib ihc ihs =>
      rw [containsSS] at h
      rcases Bool.or_eq_false_iff.1 h with ⟨h1, hsib⟩
      rcases Bool.or_eq_false_iff.1 h1 with ⟨hts, hc⟩
      by_cases hp : p tag cls
      · simp [stripAtFirst, hp, stripSS_of_ssFree child hc]
      · simp only [stripAtFirst, if_neg hp]
        by_cases hb : (stripAtFirst p child).2
        · simp [hb, ihc hc]
        · simp [hb, ihs hsib]

theorem mutatedBody_of_ssFree (b : Dom) (h : containsSS b = false) : mutatedBody b = b := by
  unfold mutatedBody
  repeat' split
  all_goals
    first
      | exact stripAtFirst_of_ssFree _ _ h
      | exact stripSS_of_ssFree _ h

theorem stripSS_eq_iff (d : Dom) : stripSS d = d ↔ containsSS d = false := by
  constructor
  · intro h
    have hc := containsSS_stripSS d
    rw [h] at hc
    exact hc
  · exact stripSS_of_ssFree d

theorem stripAtFirst_found (p : String → List String → Bool) :
    ∀ d : Dom, (stripAtFirst p d).2 = (findFirst p d).isSome := by
  intro d
  induction d with
  | nil => rfl
  | text s sib ih => simp [stripAtFirst, findFirst, ih]
  | elem tag cls child sib ihc ihs =>
      by_cases hp : p tag cls
      · simp [stripAtFirst, findFirst, hp]
      · simp only [stripAtFirst, findFirst, if_neg hp]
        rcases hc : findFirst p child with _ | r
        · have h2 : (stripAtFirst p child).2 = false := by rw [ihc, hc]; rfl
          simp [h2, ihs]
        · have h2 : (stripAtFirst p child).2 = true := by rw [ihc, hc]; rfl
          simp [h2]

theorem stripAtFirst_eq_of_found (p : String → List String → Bool) :
    ∀ b ch : Dom, findFirst p b = some ch → stripSS ch = ch → (stripAtFirst p b).1 = b := by
  intro b
  induction b with
  | nil => intro ch h; cases h
  | text s sib ih =>
      intro ch h heq
      rw [findFirst] at h
      simp [stripAtFirst, ih ch h heq]
  | elem tag cls child sib ihc ihs =>
      intro ch h heq
      by_cases hp : p tag cls
      · simp only [findFirst, if_pos hp, Option.some.injEq] at h
        subst h
        simp [stripAtFirst, hp, heq]
      · rcases hc : findFirst p child with _ | r
        · simp only [findFirst, if_neg hp, hc] at h
          have h2 : (stripAtFirst p child).2 = false := by rw [stripAtFirst_found, hc]; rfl
          simp [stripAtFirst, hp, h2, ihs ch h heq]
        · simp only [findFirst, if_neg hp, hc, Option.some.injEq] at h
          subst h
          have h2 : (stripAtFirst p child).2 = true := by rw [stripAtFirst_found, hc]; rfl
          simp [stripAtFirst, hp, h2, ihc _ hc heq]

theorem stripAtFirst_ne_of_found (p : String → List String → Bool) :
    ∀ b ch : Dom, findFirst p b = some ch → stripSS ch ≠ ch → (stripAtFirst p b).1 ≠ b := by
  intro b
  induction b with
  | nil => intro ch h; cases h
  | text s sib ih =>
      intro ch h hne heq
      rw [findFirst] at h
      simp only [stripAtFirst] at heq
      injection heq with _ h2
      exact ih ch h hne h2
  | elem tag cls child sib ihc ihs =>
      intro ch h hne heq
      by_cases hp : p tag cls
      · simp only [findFirst, if_pos hp, Option.some.injEq] at h
        subst h
        simp only [stripAtFirst, if_pos hp] at heq
        injection heq with _ _ h3 _
        exact hne h3
      · rcases hc : findFirst p child with _ | r
        · simp only [findFirst, if_neg hp, hc] at h
          have h2 : (stripAtFirst p child).2 = false := by rw [stripAtFirst_found, hc]; rfl
          simp only [stripAtFirst, if_neg hp, h2, Bool.false_eq_true, if_false] at heq
          injection heq with _ _ _ h4
          exact ihs ch h hne h4
        · simp only [findFirst, if_neg hp, hc, Option.some.injEq] at h
          subst h
          have h2 : (stripAtFirst p child).2 = true := by rw [stripAtFirst_found, hc]; rfl
          simp only [stripAtFirst, if_neg hp, h2, if_true] at heq
          injection heq with _ _ h3 _
          exact ihc _ hc hne h3

theorem stripAtFirst_eq_iff (p : String → List String → Bool) (b ch : Dom)
    (h : findFirst p b = some ch) :
    ((stripAtFirst p b).1 = b ↔ containsSS ch = false) := by
  constructor
  · intro he
    by_contra hcon
    have ht : containsSS ch = true := by
      cases hx : containsSS ch
      · exact absurd hx hcon
      · rfl
    have hne : stripSS ch ≠ ch := by
      intro hh
      have hc := containsSS_stripSS ch
      rw [hh, ht] at hc
      cases hc
    exact stripAtFirst_ne_of_found p b ch h hne he
  · intro hf
    exact stripAtFirst_eq_of_found p b ch h (stripSS_of_ssFree ch hf)

theorem mutatedBody_eq_iff (body : Dom) :
    mutatedBody body = body ↔ containsSS (selectedChildren body) = false := by
  unfold mutatedBody selectedChildren
  rcases h1 : findFirst mainP body with _ | ch
  · rcases h2 : findFirst articleP body with _ | ch
    · rcases h3 : findFirst docClassP body with _ | ch
      · rcases h4 : findFirst notionClassP body with _ | ch
        · exact stripSS_eq_iff body
        · exact stripAtFirst_eq_iff notionClassP body ch h4
      · exact stripAtFirst_eq_iff docClassP body ch h3
    · exact stripAtFirst_eq_iff articleP body ch h2
  · exact stripAtFirst_eq_iff mainP body ch h1

/-! ## Facts about failing outcomes -/

theorem fileResult_fails (o : UrlOutcome) (h : failsCleanly o = true) :
    ∀ url, fileResult url o = none := by
  intro url
  cases o with
  | navFail m => rfl
  | selFail m => rfl
  | evalFail m => rfl
  | extracted d w =>
      cases w with
      | ok => cases h
      | openFail m => rfl
      | midFail n m => cases h

theorem recorded_fails (o : UrlOutcome) (h : failsCleanly o = true) :
    recorded o = none := by
  cases o with
  | navFail m => rfl
  | selFail m => rfl
  | evalFail m => rfl
  | extracted d w =>
      cases w with
      | ok => cases h
      | openFail m => rfl
      | midFail n m => cases h

theorem scrapeLog_fails (o : UrlOutcome) (h : failsCleanly o = true) :
    ∀ url f, scrapeLog url f o = [scrapingLine url, errorLine url (errMsgOf o)] := by
  intro url f
  cases o with
  | navFail m => rfl
  | selFail m => rfl
  | evalFail m => rfl
  | extracted d w =>
      cases w with
      | ok => cases h
      | openFail m => rfl
      | midFail n m => cases h

theorem scrapeLog_of_retResult_none (o : UrlOutcome) (h : retResult o = none) :
    ∀ url f, scrapeLog url f o = [scrapingLine url, errorLine url (errMsgOf o)] := by
  intro url f
  cases o with
  | navFail m => rfl
  | selFail m => rfl
  | evalFail m => rfl
  | extracted d w =>
      cases w with
      | ok => exact absurd h (by simp [retResult])
      | openFail m => rfl
      | midFail n m => rfl

/-! ## The state after the loop, spelled out -/

theorem notion_not_output : NOTION_FILE ∉ DOCS_URLS.map outputFile := by
  intro h
  rcases List.mem_map.1 h with ⟨u, _, hu⟩
  exact outputFile_ne_notion u hu

theorem listRun_fs_eq (env : RunEnv) :
    (listRun env).1 = expectedFiles env.pages 0 DOCS_URLS := by
  unfold listRun
  rw [runUrls_fs_char DOCS_URLS env.pages 0 [] [] [] (by decide) (fun u _ => rfl)]
  rfl

theorem listRun_results_eq (env : RunEnv) :
    (listRun env).2.2 = expectedResults env.pages 0 DOCS_URLS := by
  unfold listRun
  rw [runUrls_results_char DOCS_URLS env.pages 0 [] [] [] (by decide) (fun u _ => rfl)]
  rfl

theorem listRun_log_eq (env : RunEnv) :
    (listRun env).2.1 = expectedLog env.pages 0 DOCS_URLS := by
  unfold listRun
  rw [runUrls_log_eq]
  rfl

theorem main_output_lookup (env : RunEnv) (j : Nat) (hj : j < DOCS_URLS.length) :
    (main env).fs.lookup (outputFile DOCS_URLS[j]) = fileResult DOCS_URLS[j] (env.pages j) := by
  rw [main_fs_lookup_eq env _ (outputFile_ne_notion _), listRun_fs_eq]
  have h := expectedFiles_lookup DOCS_URLS env.pages 0 j hj (by decide)
  simpa using h

theorem main_results_lookup (env : RunEnv) (j : Nat) (hj : j < DOCS_URLS.length) :
    (main env).results.lookup (lastSegment DOCS_URLS[j]) = recorded (env.pages j) := by
  rw [main_results_eq, listRun_results_eq]
  have h := expectedResults_lookup DOCS_URLS env.pages 0 j hj (by decide)
  simpa using h

theorem listRun_notion_lookup (env : RunEnv) :
    (listRun env).1.lookup NOTION_FILE = none := by
  unfold listRun
  rw [runUrls_fs_lookup_other DOCS_URLS env.pages 0 [] [] [] NOTION_FILE notion_not_output]
  rfl

theorem main_errCount_eq (env : RunEnv) :
    (main env).log.countP startsErr = (listRun env).2.1.countP startsErr := by
  obtain ⟨pages, notion⟩ := env
  unfold main listRun
  rcases notion with m | m | ⟨t, w⟩
  · simp [List.countP_append, List.countP_cons, startsErr_notionBanner]
  · simp [List.countP_append, List.countP_cons, startsErr_notionBanner]
  · cases w <;>
      simp [List.countP_append, List.countP_cons, startsErr_notionBanner,
        startsErr_notionSavedLine, startsErr_sep, startsErr_countLine,
        startsErr_outputDirLine, startsErr_eq60]

theorem expectedLog_mem (urls : List String) :
    ∀ (env : Nat → UrlOutcome) (i : Nat) (l : String), l ∈ expectedLog env i urls →
      (∃ u, l = scrapingLine u) ∨ (∃ u m, l = errorLine u m) ∨ (∃ f, l = savedLine f) := by
  induction urls with
  | nil =>
      intro env i l h
      rw [expectedLog] at h
      cases h
  | cons url rest ih =>
      intro env i l h
      rw [expectedLog] at h
      rcases List.mem_append.1 h with h1 | h2
      · cases ho : env i with
        | navFail m =>
            rw [ho] at h1
            rcases h1 with _ | ⟨_, h1⟩
            · exact Or.inl ⟨url, rfl⟩
            · rcases h1 with _ | ⟨_, h1⟩
              · exact Or.inr (Or.inl ⟨url, m, rfl⟩)
              · cases h1
        | selFail m =>
            rw [ho] at h1
            rcases h1 with _ | ⟨_, h1⟩
            · exact Or.inl ⟨url, rfl⟩
            · rcases h1 with _ | ⟨_, h1⟩
              · exact Or.inr (Or.inl ⟨url, m, rfl⟩)
              · cases h1
        | evalFail m =>
            rw [ho] at h1
            rcases h1 with _ | ⟨_, h1⟩
            · exact Or.inl ⟨url, rfl⟩
            · rcases h1 with _ | ⟨_, h1⟩
              · exact Or.inr (Or.inl ⟨url, m, rfl⟩)
              · cases h1
        | extracted d w =>
            rw [ho] at h1
            cases w with
            | ok =>
                rcases h1 with _ | ⟨_, h1⟩
                · exact Or.inl ⟨url, rfl⟩
                · rcases h1 with _ | ⟨_, h1⟩
                  · exact Or.inr (Or.inr ⟨outputFile url, rfl⟩)
                  · cases h1
            | openFail m =>
                rcases h1 with _ | ⟨_, h1⟩
                · exact Or.inl ⟨url, rfl⟩
                · rcases h1 with _ | ⟨_, h1⟩
                  · exact Or.inr (Or.inl ⟨url, m, rfl⟩)
                  · cases h1
            | midFail n m =>
                rcases h1 with _ | ⟨_, h1⟩
                · exact Or.inl ⟨url, rfl⟩
                · rcases h1 with _ | ⟨_, h1⟩
                  · exact Or.inr (Or.inl ⟨url, m, rfl⟩)
                  · cases h1
      · exact ih _ _ _ h2

theorem main_countLine_mem (env : RunEnv) (t : String) (hn : env.notion = .rendered t .ok) :
    countLine (main env).results.length ∈ (main env).log := by
  obtain ⟨pages, notion⟩ := env
  simp only at hn
  subst hn
  unfold main
  simp

theorem expectedResults_length (urls : List String) :
    ∀ (env : Nat → UrlOutcome) (i : Nat),
      (expectedResults env i urls).length =
        (List.range urls.length).countP (fun j => (recorded (env (i + j))).isSome) := by
  induction urls with
  | nil => intro env i; rfl
  | cons url rest ih =>
      intro env i
      rcases hr : recorded (env i) with _ | s <;>
        simp [expectedResults, hr, List.length_cons, List.range_succ_eq_map,
          List.countP_cons, List.countP_map, ih] <;>
        (congr 1
         funext j
         simp only [Function.comp_apply]
         rw [show i + (j + 1) = i + 1 + j by omega])

/-- In any run, the size of the `results` mapping (the number the
summary would report) equals the number of fixed-list indices recorded
as a success — a count of successes, not of attempts. -/
theorem main_results_count (env : RunEnv) :
    (main env).results.length =
      (List.range DOCS_URLS.length).countP (fun j => (recorded (env.pages j)).isSome) := by
  rw [main_results_eq, listRun_results_eq]
  have h := expectedResults_length DOCS_URLS env.pages 0
  simpa using h

theorem fileResult_ok (url : String) (d : Document) :
    fileResult url (.extracted d .ok) = some (dumpDoc url d) := rfl

theorem recorded_ok (d : Document) :
    recorded (.extracted d .ok) =
      (if (extractContent d).text != "" then some (extractContent d).text else none) := rfl

theorem scrapeLog_ok (url f : String) (d : Document) :
    scrapeLog url f (.extracted d .ok) = [scrapingLine url, savedLine f] := rfl

/-! ## The claims -/

/-- C1 (corrected): as stated, the claim is false — a failure of the file
write itself can leave a partial file, because the file is opened
(created/truncated) before the JSON payload is written.  Concretely: in
`c1cexEnv` URL 0 fails during its file write after 3 characters, the
per-URL guard logs the error, and yet the output file for URL 0 persists
on disk holding a strict prefix of the intended JSON. -/
theorem claim_C1_counterexample :
    (main c1cexEnv).fs.lookup (outputFile "https://hyperping.com/docs/api/overview") =
        some "\x7b\n " ∧
    errorLine "https://hyperping.com/docs/api/overview" "disk full" ∈ (main c1cexEnv).log ∧
    strTake 3 (dumpDoc "https://hyperping.com/docs/api/overview" demoDoc) = "\x7b\n " ∧
    "\x7b\n " ≠ dumpDoc "https://hyperping.com/docs/api/overview" demoDoc := by
  refine ⟨by decide, by decide, by decide, by decide⟩

/-- C1 (amended): for a fixed-list URL whose processing fails at
navigation, selector wait, in-page extraction, or at opening the output
file, no output file is persisted for that URL (the disk is unchanged)
and `None` is returned; but if the write fails after the file was
opened, a partial file holding a prefix of the intended JSON is left on
disk. -/
theorem claim_C1 :
    (∀ (o : UrlOutcome) (fs : FS) (url out : String), failsCleanly o = true →
        scrape_page o fs url out =
          (fs, [scrapingLine url, errorLine url (errMsgOf o)], none)) ∧
    (∀ (d : Document) (n : Nat) (m : String) (fs : FS) (url out : String),
        scrape_page (.extracted d (.midFail n m)) fs url out =
          (setKV fs out (strTake n (dumpDoc url d)),
           [scrapingLine url, errorLine url m], none)) := by
  constructor
  · intro o fs url out h
    cases o with
    | navFail m => rfl
    | selFail m => rfl
    | evalFail m => rfl
    | extracted d w =>
        cases w with
        | ok => cases h
        | openFail m => rfl
        | midFail n m => cases h
  · intro d n m fs url out
    rfl

/-- C1 witness: the amended theorem applied at a concrete clean failure. -/
theorem claim_C1_witness :
    failsCleanly (.navFail "timeout") = true ∧
    scrape_page (.navFail "timeout") [] "u" "f" =
      ([], [scrapingLine "u", errorLine "u" (errMsgOf (.navFail "timeout"))], none) :=
  ⟨by decide, claim_C1.1 (.navFail "timeout") [] "u" "f" (by decide)⟩

/-- C2 (corrected): the claimed equivalence is false — in `c2cexEnv`
URL 0 extracts successfully but with empty text, so its output file
exists after the run while the URL was never recorded as a success in
the results mapping. -/
theorem claim_C2_counterexample :
    (main c2cexEnv).fs.lookup (outputFile "https://hyperping.com/docs/api/overview") ≠ none ∧
    (main c2cexEnv).results.lookup (lastSegment "https://hyperping.com/docs/api/overview") =
      none := by
  refine ⟨by decide, by decide⟩

/-- C2 (amended): starting from an empty output directory and assuming
every attempted file write succeeds, after the run the output file
`docs_scraped/<last-segment>.json` of a fixed-list URL exists iff
extraction succeeded for that URL; the URL is recorded as a success iff
extraction succeeded and the extracted text is nonempty. -/
theorem claim_C2 (env : RunEnv) (hw : ∀ i, writeOk (env.pages i)) (j : Nat)
    (hj : j < DOCS_URLS.length) :
    ((main env).fs.lookup (outputFile DOCS_URLS[j]) ≠ none ↔
      extractedB (env.pages j) = true) ∧
    ((main env).results.lookup (lastSegment DOCS_URLS[j]) ≠ none ↔
      (extractedB (env.pages j) = true ∧ extractedText (env.pages j) ≠ "")) := by
  rw [main_output_lookup env j hj, main_results_lookup env j hj]
  have hwj := hw j
  cases ho : env.pages j with
  | navFail m => simp [fileResult, recorded, retResult, extractedB]
  | selFail m => simp [fileResult, recorded, retResult, extractedB]
  | evalFail m => simp [fileResult, recorded, retResult, extractedB]
  | extracted d w =>
      rw [ho] at hwj
      have hwo : w = WriteOutcome.ok := hwj
      subst hwo
      constructor
      · simp [fileResult, extractedB, dumpDoc]
      · by_cases ht : (extractContent d).text = "" <;>
          simp [recorded, retResult, extractedB, extractedText, ht]

/-- C2 witness: the amended theorem applied to an environment where all
writes succeed and URL 0 extracts nonempty text. -/
theorem claim_C2_witness :
    (∀ i, writeOk (c2witEnv.pages i)) ∧
    (((main c2witEnv).fs.lookup (outputFile DOCS_URLS[0]) ≠ none ↔
        extractedB (c2witEnv.pages 0) = true) ∧
      ((main c2witEnv).results.lookup (lastSegment DOCS_URLS[0]) ≠ none ↔
        (extractedB (c2witEnv.pages 0) = true ∧ extractedText (c2witEnv.pages 0) ≠ ""))) :=
  ⟨fun _ => rfl, claim_C2 c2witEnv (fun _ => rfl) 0 (by decide)⟩

/-- C4 (corrected): as stated, the claim is false in its "no
notion_api_docs.txt file is produced" part — the Notion write opens the
file before writing, so a write failure part-way leaves a partial file,
even though the run still terminates with a non-zero exit.  In
`c4cexEnv` the Notion write raises after 2 characters: the exit is
non-zero and yet the file exists holding "he". -/
theorem claim_C4_counterexample :
    exitCode c4cexEnv = 1 ∧
    (main c4cexEnv).fs.lookup NOTION_FILE = some "he" ∧
    (main c4cexEnv).err = some "disk full" := by
  refine ⟨by decide, by decide, by decide⟩

/-- C4 (amended): a failure of the trailing Notion step is not caught:
the run terminates with that exception and the process exits non-zero.
If the failure is at navigation, at in-page extraction, or at opening
the output file, no `docs_scraped/notion_api_docs.txt` is produced;
a failure during the write after the open leaves a partial file. -/
theorem claim_C4 (env : RunEnv) :
    (∀ m, env.notion = .navFail m →
      (main env).err = some m ∧ exitCode env = 1 ∧
        (main env).fs.lookup NOTION_FILE = none) ∧
    (∀ m, env.notion = .evalFail m →
      (main env).err = some m ∧ exitCode env = 1 ∧
        (main env).fs.lookup NOTION_FILE = none) ∧
    (∀ t m, env.notion = .rendered t (.openFail m) →
      (main env).err = some m ∧ exitCode env = 1 ∧
        (main env).fs.lookup NOTION_FILE = none) ∧
    (∀ t n m, env.notion = .rendered t (.midFail n m) →
      (main env).err = some m ∧ exitCode env = 1 ∧
        (main env).fs.lookup NOTION_FILE = some (strTake n t)) := by
  have hbase := listRun_notion_lookup env
  obtain ⟨pages, notion⟩ := env
  unfold listRun at hbase
  refine ⟨?_, ?_, ?_, ?_⟩
  · intro m hm
    simp only at hm
    subst hm
    exact ⟨rfl, rfl, hbase⟩
  · intro m hm
    simp only at hm
    subst hm
    exact ⟨rfl, rfl, hbase⟩
  · intro t m hm
    simp only at hm
    subst hm
    exact ⟨rfl, rfl, hbase⟩
  · intro t n m hm
    simp only at hm
    subst hm
    refine ⟨rfl, rfl, ?_⟩
    show (setKV (runUrls pages 0 [] [] [] DOCS_URLS).1 NOTION_FILE (strTake n t)).lookup
        NOTION_FILE = some (strTake n t)
    exact lookup_setKV_self _ _ _

/-- C4 witness: the amended theorem applied where the Notion navigation
fails. -/
theorem claim_C4_witness :
    c4witEnv.notion = .navFail "notion nav failed" ∧
    ((main c4witEnv).err = some "notion nav failed" ∧ exitCode c4witEnv = 1 ∧
      (main c4witEnv).fs.lookup NOTION_FILE = none) :=
  ⟨rfl, (claim_C4 c4witEnv).1 "notion nav failed" rfl⟩

/-- C5 (corrected): as stated, the claim is false in its "the original
page content is left unmodified" part — the extraction script calls
`s.remove()` on the live DOM, so the page is mutated whenever the
selected container holds a script or style element.  In `demoDoc` the
`main` element holds a script, and the body after extraction differs
from the body before. -/
theorem claim_C5_counterexample :
    mutatedBody demoDoc.body ≠ demoDoc.body ∧ containsSS demoDoc.body = true := by
  refine ⟨by decide, by decide⟩

/-- C5 (amended): extraction selects the first matching container in the
priority order main, article, .documentation, .notion-page-content,
defaulting to the whole body; script and style elements are removed from
the selected container in the live document — the page is mutated
exactly when the selected container holds a script or style element,
and in particular is unchanged when the whole body holds none; the
extracted data is the stripped container's text, inner markup, and the
document title, and the stripped container holds no script or style
element. -/
theorem claim_C5 (d : Document) :
    (∀ ch, findFirst mainP d.body = some ch → selectedChildren d.body = ch) ∧
    (findFirst mainP d.body = none →
      ∀ ch, findFirst articleP d.body = some ch → selectedChildren d.body = ch) ∧
    (findFirst mainP d.body = none → findFirst articleP d.body = none →
      ∀ ch, findFirst docClassP d.body = some ch → selectedChildren d.body = ch) ∧
    (findFirst mainP d.body = none → findFirst articleP d.body = none →
      findFirst docClassP d.body = none →
      ∀ ch, findFirst notionClassP d.body = some ch → selectedChildren d.body = ch) ∧
    (findFirst mainP d.body = none → findFirst articleP d.body = none →
      findFirst docClassP d.body = none → findFirst notionClassP d.body = none →
      selectedChildren d.body = d.body) ∧
    extractContent d =
      ⟨textF (stripSS (selectedChildren d.body)), htmlF (stripSS (selectedChildren d.body)),
        d.title⟩ ∧
    containsSS (stripSS (selectedChildren d.body)) = false ∧
    (mutatedBody d.body = d.body ↔ containsSS (selectedChildren d.body) = false) ∧
    (containsSS d.body = false → mutatedBody d.body = d.body) := by
  refine ⟨?_, ?_, ?_, ?_, ?_, rfl, containsSS_stripSS _, mutatedBody_eq_iff _,
    mutatedBody_of_ssFree _⟩
  · intro ch h
    unfold selectedChildren
    rw [h]
  · intro h1 ch h
    unfold selectedChildren
    rw [h1, h]
  · intro h1 h2 ch h
    unfold selectedChildren
    rw [h1, h2, h]
  · intro h1 h2 h3 ch h
    unfold selectedChildren
    rw [h1, h2, h3, h]
  · intro h1 h2 h3 h4
    unfold selectedChildren
    rw [h1, h2, h3, h4]

/-- C5 witness: the amended theorem applied to `demoDoc`, whose body has
a `main` element: the priority rule selects it. -/
theorem claim_C5_witness :
    findFirst mainP demoDoc.body =
        some (.text "hello" (.elem "script" [] (.text "var x" .nil) .nil)) ∧
    selectedChildren demoDoc.body =
      .text "hello" (.elem "script" [] (.text "var x" .nil) .nil) :=
  ⟨by decide, (claim_C5 demoDoc).1 _ (by decide)⟩

/-- C7: for a fixed-list URL whose scrape fully succeeds, its output is
at `docs_scraped/<last-path-segment>.json` and holds exactly the
`json.dump` serialization of the four fields url, title, text, html
(the definition `dumpScraped`, with 2-space indentation); processing the
URL writes exactly that one file (the disk is the prior disk with that
single path set); the escaping is lossless; and every character at or
above code point 128 is emitted literally, never escaped. -/
theorem claim_C7 (env : RunEnv) (j : Nat) (hj : j < DOCS_URLS.length) (d : Document)
    (h : env.pages j = .extracted d .ok) :
    (main env).fs.lookup (outputFile DOCS_URLS[j]) =
      some (dumpScraped DOCS_URLS[j] (extractContent d).title (extractContent d).text
        (extractContent d).html) ∧
    outputFile DOCS_URLS[j] = "docs_scraped/" ++ lastSegment DOCS_URLS[j] ++ ".json" ∧
    (∀ (fs : FS) (url out : String),
      (scrape_page (.extracted d .ok) fs url out).1 = setKV fs out (dumpDoc url d)) ∧
    (∀ s, pyUnescape (pyEscape s) = s) ∧
    (∀ c : Char, 128 ≤ c.toNat → escC c = [c]) := by
  refine ⟨?_, rfl, fun fs url out => rfl, pyUnescape_pyEscape, escC_of_ge128⟩
  rw [main_output_lookup env j hj, h]
  rfl

/-- C7 witness: the theorem applied where URL 0 fully succeeds. -/
theorem claim_C7_witness :
    c2witEnv.pages 0 = .extracted demoDoc .ok ∧
    (main c2witEnv).fs.lookup (outputFile DOCS_URLS[0]) =
      some (dumpScraped DOCS_URLS[0] (extractContent demoDoc).title
        (extractContent demoDoc).text (extractContent demoDoc).html) :=
  ⟨rfl, (claim_C7 c2witEnv 0 (by decide) demoDoc rfl).1⟩

/-- C8: the exit status does not depend on the fixed-list outcomes at
all, and it is zero exactly when the trailing Notion step runs to
completion; any Notion-step failure exits non-zero. -/
theorem claim_C8 (p₁ p₂ : Nat → UrlOutcome) (n : NotionOutcome) :
    exitCode ⟨p₁, n⟩ = exitCode ⟨p₂, n⟩ ∧
    (exitCode ⟨p₁, n⟩ = 0 ↔ notionOk n = true) := by
  have h : ∀ p : Nat → UrlOutcome, exitCode ⟨p, n⟩ = if notionOk n then 0 else 1 := by
    intro p
    unfold exitCode main notionOk
    rcases n with m | m | ⟨t, w⟩
    · rfl
    · rfl
    · cases w <;> rfl
  rw [h p₁, h p₂]
  cases hn : notionOk n <;> simp

/-- C9: when extraction succeeds for a fixed-list URL but yields empty
text, the JSON file is still written for it, `scrape_page` returns the
empty string, and the URL is absent from the in-memory results mapping
(so it is excluded from the summary count), because `if content:` treats
the empty string like `None`. -/
theorem claim_C9 (env : RunEnv) (j : Nat) (hj : j < DOCS_URLS.length) (d : Document)
    (h : env.pages j = .extracted d .ok) (hempty : (extractContent d).text = "") :
    (main env).fs.lookup (outputFile DOCS_URLS[j]) = some (dumpDoc DOCS_URLS[j] d) ∧
    (main env).results.lookup (lastSegment DOCS_URLS[j]) = none ∧
    retResult (env.pages j) = some "" := by
  rw [main_output_lookup env j hj, main_results_lookup env j hj, h]
  refine ⟨rfl, ?_, ?_⟩
  · simp [recorded, retResult, hempty]
  · simp [retResult, hempty]

/-- C9 witness: the theorem applied where URL 0 extracts an empty text
and the write succeeds. -/
theorem claim_C9_witness :
    c9witEnv.pages 0 = .extracted emptyDoc .ok ∧
    (extractContent emptyDoc).text = "" ∧
    ((main c9witEnv).fs.lookup (outputFile DOCS_URLS[0]) =
        some (dumpDoc DOCS_URLS[0] emptyDoc) ∧
      (main c9witEnv).results.lookup (lastSegment DOCS_URLS[0]) = none ∧
      retResult (c9witEnv.pages 0) = some "") :=
  ⟨rfl, by decide, claim_C9 c9witEnv 0 (by decide) emptyDoc rfl (by decide)⟩

/-- C10: when the trailing Notion step raises, the explicit
`browser.close()` call is never reached and none of the final summary
lines is printed: the output-directory line appears nowhere in the log,
and no "Scraped n pages successfully" line appears for any n, even if
fixed-list URLs succeeded earlier. -/
theorem claim_C10 (env : RunEnv) (h : notionOk env.notion = false) :
    (main env).closed = false ∧
    outputDirLine ∉ (main env).log ∧
    (∀ n, countLine n ∉ (main env).log) := by
  have hlog := main_log_of_notion_fails env h
  refine ⟨by rw [main_closed_eq, h], ?_, ?_⟩
  · rw [hlog]
    intro hmem
    rcases List.mem_append.1 hmem with h1 | h2
    · rw [listRun_log_eq] at h1
      rcases expectedLog_mem DOCS_URLS env.pages 0 _ h1 with ⟨u, hu⟩ | ⟨u, m, hu⟩ | ⟨f, hu⟩
      · exact (outputDirLine_ne_scrapeLogLine u "" "").1 hu
      · exact (outputDirLine_ne_scrapeLogLine u m "").2.1 hu
      · exact (outputDirLine_ne_scrapeLogLine "" "" f).2.2.1 hu
    · rw [List.mem_singleton] at h2
      exact (outputDirLine_ne_scrapeLogLine "" "" "").2.2.2 h2
  · intro n
    rw [hlog]
    intro hmem
    rcases List.mem_append.1 hmem with h1 | h2
    · rw [listRun_log_eq] at h1
      rcases expectedLog_mem DOCS_URLS env.pages 0 _ h1 with ⟨u, hu⟩ | ⟨u, m, hu⟩ | ⟨f, hu⟩
      · exact countLine_ne_scrapingLine n u hu
      · exact countLine_ne_errorLine n u m hu
      · exact countLine_ne_savedLine n f hu
    · rw [List.mem_singleton] at h2
      exact countLine_ne_notionBanner n h2

theorem expectedLog_mem_of (urls : List String) :
    ∀ (env : Nat → UrlOutcome) (i j : Nat) (hj : j < urls.length) (l : String),
      l ∈ scrapeLog urls[j] (outputFile urls[j]) (env (i + j)) →
      l ∈ expectedLog env i urls := by
  induction urls with
  | nil => intro env i j hj; exact absurd hj (by simp)
  | cons url rest ih =>
      intro env i j hj l hl
      rw [expectedLog]
      cases j with
      | zero =>
          apply List.mem_append_left
          simpa using hl
      | succ j' =>
          apply List.mem_append_right
          have hj' : j' < rest.length := Nat.lt_of_succ_lt_succ hj
          refine ih env (i + 1) j' hj' l ?_
          rw [show i + 1 + j' = i + (j' + 1) by omega]
          simpa using hl

/-- C3 (corrected): the claim's "7 JSON files are produced" is false for
one of the failure modes its "any failure during its processing" covers:
in `c3cexEnv` entry 2 fails during its file write after the file was
opened; the failure is caught and logged as always, the run proceeds to
the Notion page, and yet 8 JSON files persist — entry 2's file exists
holding a 3-character prefix of its JSON. -/
theorem claim_C3_counterexample :
    jsonFileCount (main c3cexEnv).fs = 8 ∧
    errorLine "https://hyperping.com/docs/api/statuspages" "disk full" ∈ (main c3cexEnv).log ∧
    (main c3cexEnv).fs.lookup (outputFile "https://hyperping.com/docs/api/statuspages") =
      some "\x7b\n " ∧
    notionBanner ∈ (main c3cexEnv).log := by
  refine ⟨by decide, by decide, by decide, by decide⟩

/-- C3 (amended): every per-URL failure is caught at the per-URL
granularity, logged as one error line naming the failed URL and the
exception message, the URL is skipped without retry, and the run
proceeds — the Notion banner is printed whatever the Notion outcome is,
and when exactly one of the 8 entries fails the other seven files are
all produced and exactly one error line is printed.  The file count,
however, depends on where the failure struck: a failure before the
output file is opened (navigation, selector wait, extraction, open)
leaves no file for that URL and exactly 7 JSON files; a write failure
after the open leaves a partial file for that URL, so 8 JSON files
persist. -/
theorem claim_C3 (env : RunEnv) (i : Nat) (hi : i < DOCS_URLS.length) (o : UrlOutcome)
    (hfail : retResult o = none) (docs : Nat → Document)
    (henv : ∀ j, env.pages j = if j = i then o else .extracted (docs j) .ok) :
    errorLine DOCS_URLS[i] (errMsgOf o) ∈ (main env).log ∧
    (main env).log.countP startsErr = 1 ∧
    notionBanner ∈ (main env).log ∧
    (main env).fs.lookup (outputFile DOCS_URLS[i]) = fileResult DOCS_URLS[i] o ∧
    (failsCleanly o = true →
      (main env).fs.lookup (outputFile DOCS_URLS[i]) = none ∧
      jsonFileCount (main env).fs = 7) ∧
    (∀ d n m, o = .extracted d (.midFail n m) →
      (main env).fs.lookup (outputFile DOCS_URLS[i]) =
        some (strTake n (dumpDoc DOCS_URLS[i] d)) ∧
      jsonFileCount (main env).fs = 8) := by
  have hsl := scrapeLog_of_retResult_none o hfail
  have henvi : env.pages i = o := by rw [henv i, if_pos rfl]
  have hout : (main env).fs.lookup (outputFile DOCS_URLS[i]) = fileResult DOCS_URLS[i] o := by
    rw [main_output_lookup env i hi, henvi]
  have hmem : errorLine DOCS_URLS[i] (errMsgOf o) ∈ (main env).log := by
    apply main_log_mem
    rw [listRun_log_eq]
    apply expectedLog_mem_of DOCS_URLS env.pages 0 i hi
    rw [show (0 : Nat) + i = i from Nat.zero_add i, henvi, hsl]
    exact List.mem_cons_of_mem _ (List.mem_cons_self _ _)
  have hi8 : i < 8 := hi
  refine ⟨hmem, ?_, main_banner_mem env, hout, ?_, ?_⟩
  · rw [main_errCount_eq, listRun_log_eq]
    interval_cases i <;>
      simp [expectedLog, DOCS_URLS, henv 0, henv 1, henv 2, henv 3, henv 4, henv 5,
        henv 6, henv 7, scrapeLog_ok, hsl, List.countP_append, List.countP_cons,
        startsErr_scrapingLine, startsErr_errorLine, startsErr_savedLine]
  · intro hclean
    have hfr := fileResult_fails o hclean
    refine ⟨by rw [hout, hfr], ?_⟩
    rw [main_jsonCount_eq, listRun_fs_eq]
    interval_cases i <;>
      simp [expectedFiles, DOCS_URLS, henv 0, henv 1, henv 2, henv 3, henv 4, henv 5,
        henv 6, henv 7, fileResult_ok, hfr, jsonFileCount, List.filter_cons,
        isJsonFile_outputFile]
  · intro d n m ho
    subst ho
    have hfm : ∀ url, fileResult url (.extracted d (.midFail n m)) =
        some (strTake n (dumpDoc url d)) := fun url => rfl
    refine ⟨by rw [hout, hfm], ?_⟩
    rw [main_jsonCount_eq, listRun_fs_eq]
    interval_cases i <;>
      simp [expectedFiles, DOCS_URLS, henv 0, henv 1, henv 2, henv 3, henv 4, henv 5,
        henv 6, henv 7, fileResult_ok, hfm, jsonFileCount, List.filter_cons,
        isJsonFile_outputFile]

/-- C3 witness: the amended theorem applied where entry 2 raises a
navigation timeout and the other entries succeed. -/
theorem claim_C3_witness :
    retResult (.navFail "boom") = none ∧
    (errorLine DOCS_URLS[2] (errMsgOf (.navFail "boom")) ∈ (main c3witEnv).log ∧
      (main c3witEnv).log.countP startsErr = 1 ∧
      notionBanner ∈ (main c3witEnv).log ∧
      (main c3witEnv).fs.lookup (outputFile DOCS_URLS[2]) =
        fileResult DOCS_URLS[2] (.navFail "boom") ∧
      (failsCleanly (.navFail "boom") = true →
        (main c3witEnv).fs.lookup (outputFile DOCS_URLS[2]) = none ∧
        jsonFileCount (main c3witEnv).fs = 7) ∧
      (∀ d n m, (.navFail "boom" : UrlOutcome) = .extracted d (.midFail n m) →
        (main c3witEnv).fs.lookup (outputFile DOCS_URLS[2]) =
          some (strTake n (dumpDoc DOCS_URLS[2] d)) ∧
        jsonFileCount (main c3witEnv).fs = 8)) :=
  ⟨by decide,
   claim_C3 c3witEnv 2 (by decide) (.navFail "boom") (by decide) (fun _ => demoDoc)
     (fun _ => rfl)⟩

/-- C6: when each of the 8 fixed-list URLs fully succeeds with nonempty
extracted text and the Notion step succeeds, exactly 8 JSON files are
produced, the results mapping has 8 entries, the printed summary line
reports that count, and that line reads "Scraped 8 pages successfully".
In general — for every run, whatever mix of per-URL failures occurred —
the size of the results mapping equals the number of fixed-list indices
recorded as a success (a count of successes, not attempts), and whenever
the Notion step completes the printed summary line reports exactly that
size. -/
theorem claim_C6 (env : RunEnv) (docs : Nat → Document) (t : String)
    (hp : ∀ j, j < DOCS_URLS.length → env.pages j = .extracted (docs j) .ok)
    (ht : ∀ j, j < DOCS_URLS.length → (extractContent (docs j)).text ≠ "")
    (hn : env.notion = .rendered t .ok) :
    jsonFileCount (main env).fs = 8 ∧
    (main env).results.length = 8 ∧
    countLine ((main env).results.length) ∈ (main env).log ∧
    countLine 8 = "Scraped 8 pages successfully" ∧
    (∀ env' : RunEnv, (main env').results.length =
      (List.range DOCS_URLS.length).countP (fun j => (recorded (env'.pages j)).isSome)) ∧
    (∀ (env' : RunEnv) (t' : String), env'.notion = .rendered t' .ok →
      countLine ((main env').results.length) ∈ (main env').log) := by
  have h0 := hp 0 (by decide)
  have h1 := hp 1 (by decide)
  have h2 := hp 2 (by decide)
  have h3 := hp 3 (by decide)
  have h4 := hp 4 (by decide)
  have h5 := hp 5 (by decide)
  have h6 := hp 6 (by decide)
  have h7 := hp 7 (by decide)
  have t0 : ((extractContent (docs 0)).text != "") = true := bne_iff_ne.2 (ht 0 (by decide))
  have t1 : ((extractContent (docs 1)).text != "") = true := bne_iff_ne.2 (ht 1 (by decide))
  have t2 : ((extractContent (docs 2)).text != "") = true := bne_iff_ne.2 (ht 2 (by decide))
  have t3 : ((extractContent (docs 3)).text != "") = true := bne_iff_ne.2 (ht 3 (by decide))
  have t4 : ((extractContent (docs 4)).text != "") = true := bne_iff_ne.2 (ht 4 (by decide))
  have t5 : ((extractContent (docs 5)).text != "") = true := bne_iff_ne.2 (ht 5 (by decide))
  have t6 : ((extractContent (docs 6)).text != "") = true := bne_iff_ne.2 (ht 6 (by decide))
  have t7 : ((extractContent (docs 7)).text != "") = true := bne_iff_ne.2 (ht 7 (by decide))
  refine ⟨?_, ?_, main_countLine_mem env t hn, by decide, main_results_count,
    fun env' t' hn' => main_countLine_mem env' t' hn'⟩
  · rw [main_jsonCount_eq, listRun_fs_eq]
    simp [expectedFiles, DOCS_URLS, h0, h1, h2, h3, h4, h5, h6, h7, fileResult_ok,
      jsonFileCount, List.filter_cons, isJsonFile_outputFile]
  · rw [main_results_eq, listRun_results_eq]
    simp [expectedResults, DOCS_URLS, h0, h1, h2, h3, h4, h5, h6, h7, recorded_ok,
      t0, t1, t2, t3, t4, t5, t6, t7]

/-- C6 witness: the theorem applied where every page renders as
`demoDoc` and the Notion step succeeds. -/
theorem claim_C6_witness :
    (∀ j, j < DOCS_URLS.length → c6witEnv.pages j = .extracted demoDoc .ok) ∧
    (∀ j, j < DOCS_URLS.length → (extractContent demoDoc).text ≠ "") ∧
    c6witEnv.notion = .rendered "notion" .ok ∧
    (jsonFileCount (main c6witEnv).fs = 8 ∧
      (main c6witEnv).results.length = 8 ∧
      countLine ((main c6witEnv).results.length) ∈ (main c6witEnv).log ∧
      countLine 8 = "Scraped 8 pages successfully" ∧
      (∀ env' : RunEnv, (main env').results.length =
        (List.range DOCS_URLS.length).countP (fun j => (recorded (env'.pages j)).isSome)) ∧
      (∀ (env' : RunEnv) (t' : String), env'.notion = .rendered t' .ok →
        countLine ((main env').results.length) ∈ (main env').log)) :=
  ⟨fun _ _ => rfl, fun _ _ => by decide, rfl,
   claim_C6 c6witEnv (fun _ => demoDoc) "notion" (fun _ _ => rfl)
     (fun j hj => by show (extractContent demoDoc).text ≠ ""; decide) rfl⟩

/-- C10 witness: the theorem applied where all fixed URLs succeed but
the Notion evaluation raises. -/
theorem claim_C10_witness :
    notionOk c10witEnv.notion = false ∧
    ((main c10witEnv).closed = false ∧
      outputDirLine ∉ (main c10witEnv).log ∧
      (∀ n, countLine n ∉ (main c10witEnv).log)) :=
  ⟨rfl, claim_C10 c10witEnv rfl⟩

end ScrapeDocs
